import Mathlib

/-!
Shallow embedding of the modern-tetris-web core
(src/infrastructure/constants.ts, Piece.ts, Board.ts, PieceGenerator.ts and
the domain GameActions / Store / EventBus layer) together with theorems
settling the frozen claims about its specification.

Conventions of the embedding:
* TypeScript numbers used as grid coordinates are `Int` (they may go
  negative above the board); cell values, scores, counts are `Nat`.
* The flat `Uint8Array` grid is a `List Nat` indexed by `y * width + x`,
  as in `Board.getIndex`.
* `Math.random`-driven shuffling (`PieceGenerator.shuffleArray`) is modelled
  by an oracle: the generator state carries the list of successive bag
  contents the shuffle would have produced.  Where a claim needs the real
  distribution, the oracle entries are constrained to be permutations of
  the seven kinds, which is exactly the set of outcomes Fisher-Yates over
  the full set can produce.
* `EventBus.emit` calls are recorded as a list of emitted event names
  (payloads are irrelevant to the claims, which count emissions), and
  `Store.setState` calls are counted, so that "no state replacement, no
  event" is observable in the model.
-/

namespace Tetris

/-- constants.ts: the enum PieceType. -/
inductive PieceType where
  | I | O | T | S | Z | J | L
  deriving DecidableEq, Repr

/-- constants.ts: BOARD_WIDTH. -/
def BOARD_WIDTH : Nat := 12

/-- constants.ts: BOARD_HEIGHT. -/
def BOARD_HEIGHT : Nat := 20

/-- constants.ts: PIECE_SHAPES — per kind, the four 4x4 rotation matrices. -/
def PIECE_SHAPES : PieceType → List (List (List Nat))
  | .I =>
    [[[0,0,0,0],[1,1,1,1],[0,0,0,0],[0,0,0,0]],
     [[0,0,1,0],[0,0,1,0],[0,0,1,0],[0,0,1,0]],
     [[0,0,0,0],[0,0,0,0],[1,1,1,1],[0,0,0,0]],
     [[0,1,0,0],[0,1,0,0],[0,1,0,0],[0,1,0,0]]]
  | .O =>
    [[[0,0,0,0],[0,1,1,0],[0,1,1,0],[0,0,0,0]],
     [[0,0,0,0],[0,1,1,0],[0,1,1,0],[0,0,0,0]],
     [[0,0,0,0],[0,1,1,0],[0,1,1,0],[0,0,0,0]],
     [[0,0,0,0],[0,1,1,0],[0,1,1,0],[0,0,0,0]]]
  | .T =>
    [[[0,0,0,0],[0,1,0,0],[1,1,1,0],[0,0,0,0]],
     [[0,0,0,0],[0,1,0,0],[0,1,1,0],[0,1,0,0]],
     [[0,0,0,0],[0,0,0,0],[1,1,1,0],[0,1,0,0]],
     [[0,0,0,0],[0,1,0,0],[1,1,0,0],[0,1,0,0]]]
  | .S =>
    [[[0,0,0,0],[0,1,1,0],[1,1,0,0],[0,0,0,0]],
     [[0,0,0,0],[0,1,0,0],[0,1,1,0],[0,0,1,0]],
     [[0,0,0,0],[0,0,0,0],[0,1,1,0],[1,1,0,0]],
     [[0,0,0,0],[1,0,0,0],[1,1,0,0],[0,1,0,0]]]
  | .Z =>
    [[[0,0,0,0],[1,1,0,0],[0,1,1,0],[0,0,0,0]],
     [[0,0,0,0],[0,0,1,0],[0,1,1,0],[0,1,0,0]],
     [[0,0,0,0],[0,0,0,0],[1,1,0,0],[0,1,1,0]],
     [[0,0,0,0],[0,1,0,0],[1,1,0,0],[1,0,0,0]]]
  | .J =>
    [[[0,0,0,0],[1,0,0,0],[1,1,1,0],[0,0,0,0]],
     [[0,0,0,0],[0,1,1,0],[0,1,0,0],[0,1,0,0]],
     [[0,0,0,0],[0,0,0,0],[1,1,1,0],[0,0,1,0]],
     [[0,0,0,0],[0,1,0,0],[0,1,0,0],[1,1,0,0]]]
  | .L =>
    [[[0,0,0,0],[0,0,1,0],[1,1,1,0],[0,0,0,0]],
     [[0,0,0,0],[0,1,0,0],[0,1,0,0],[0,1,1,0]],
     [[0,0,0,0],[0,0,0,0],[1,1,1,0],[1,0,0,0]],
     [[0,0,0,0],[1,1,0,0],[0,1,0,0],[0,1,0,0]]]

/-- constants.ts: SPAWN_X = Math.floor(BOARD_WIDTH / 2) - 2. -/
def SPAWN_X : Int := (BOARD_WIDTH / 2 : Nat) - 2

/-- constants.ts: SPAWN_Y. -/
def SPAWN_Y : Int := 0

/-- constants.ts: SCORE_VALUES (keys 0..4 as in the source; the record has
no other keys and the scoring path only reads 1..4). -/
def SCORE_VALUES : Nat → Nat
  | 0 => 0
  | 1 => 100
  | 2 => 300
  | 3 => 500
  | 4 => 800
  | _ => 0

/-- constants.ts: SOFT_DROP_SCORE. -/
def SOFT_DROP_SCORE : Nat := 1

/-- constants.ts: HARD_DROP_SCORE. -/
def HARD_DROP_SCORE : Nat := 2

/-- constants.ts: LINES_PER_LEVEL. -/
def LINES_PER_LEVEL : Nat := 10

/-- constants.ts: INITIAL_DROP_INTERVAL (ms). -/
def INITIAL_DROP_INTERVAL : Int := 1000

/-- constants.ts: MIN_DROP_INTERVAL (ms). -/
def MIN_DROP_INTERVAL : Int := 100

/-- constants.ts: DROP_INTERVAL_DECREASE (ms per level). -/
def DROP_INTERVAL_DECREASE : Int := 50

/-- Piece.ts: a piece is its kind tag plus a rotation index 0-3
(the shape table is static, looked up on demand). -/
structure Piece where
  type : PieceType
  rotation : Nat
  deriving DecidableEq, Repr

/-- Piece.ts: rotation direction argument. -/
inductive RotDir where
  | clockwise | counterclockwise
  deriving DecidableEq, Repr

/-- Piece.getShape(): shape lookup for the current rotation. -/
def Piece.getShape (p : Piece) : List (List Nat) :=
  (PIECE_SHAPES p.type).getD p.rotation []

/-- Piece.rotate(direction): +1 mod 4 clockwise, +3 mod 4 counterclockwise.
The source mutates in place; the embedding returns the updated piece
(this is also exactly `clone()` followed by `rotate`). -/
def Piece.rotate (p : Piece) (dir : RotDir) : Piece :=
  match dir with
  | .clockwise => { p with rotation := (p.rotation + 1) % 4 }
  | .counterclockwise => { p with rotation := (p.rotation + 3) % 4 }

/-- Board.placePiece writes `piece.type.charCodeAt(0)` into the grid. -/
def pieceTag : PieceType → Nat
  | .I => 73
  | .O => 79
  | .T => 84
  | .S => 83
  | .Z => 90
  | .J => 74
  | .L => 76

/-- Board.ts: width, height and the flat Uint8Array grid. -/
structure Board where
  width : Nat
  height : Nat
  grid : List Nat
  deriving DecidableEq, Repr

namespace Board

/-- new Board(width, height): zeroed grid of length width*height. -/
def mk0 (width height : Nat) : Board :=
  ⟨width, height, List.replicate (width * height) 0⟩

/-- Board.getIndex(x, y) = y * width + x (meaningful for in-range x, y). -/
def getIndex (b : Board) (x y : Int) : Nat :=
  (y * b.width + x).toNat

/-- Board.getCell(x, y): 0 outside [0,width) x [0,height), else grid lookup. -/
def getCell (b : Board) (x y : Int) : Nat :=
  if x < 0 || x ≥ b.width || y < 0 || y ≥ b.height then 0
  else b.grid.getD (b.getIndex x y) 0

/-- Board.setCell(x, y, value): writes only when in range, else no-op. -/
def setCell (b : Board) (x y : Int) (value : Nat) : Board :=
  if 0 ≤ x ∧ x < b.width ∧ 0 ≤ y ∧ y < b.height then
    { b with grid := b.grid.set (b.getIndex x y) value }
  else b

/-- Board.isValidPosition(piece, x, y): every occupied shape cell must be
inside [0,width) horizontally, above height vertically, and (when its row
is on the board, i.e. y+row ≥ 0) land on an empty cell. -/
def isValidPosition (b : Board) (p : Piece) (x y : Int) : Bool :=
  let shape := p.getShape
  (List.range shape.length).all fun row =>
    (List.range (shape.getD row []).length).all fun col =>
      if (shape.getD row []).getD col 0 ≠ 0 then
        let boardX := x + col
        let boardY := y + row
        if boardX < 0 || boardX ≥ b.width || boardY ≥ b.height then false
        else if boardY ≥ 0 && b.getCell boardX boardY ≠ 0 then false
        else true
      else true

/-- Board.placePiece(piece, x, y): write the kind tag into every occupied
cell whose board row y+row is ≥ 0 (no validity check, as in the source). -/
def placePiece (b : Board) (p : Piece) (x y : Int) : Board :=
  let shape := p.getShape
  (List.range shape.length).foldl
    (fun b1 row =>
      (List.range ((shape.getD row []).length)).foldl
        (fun b2 col =>
          if (shape.getD row []).getD col 0 ≠ 0 then
            let boardX := x + col
            let boardY := y + row
            if 0 ≤ boardY then b2.setCell boardX boardY (pieceTag p.type)
            else b2
          else b2)
        b1)
    b

/-- Board.clearLines: helper — is row y completely nonzero. -/
def isRowFilled (b : Board) (y : Nat) : Bool :=
  (List.range b.width).all fun x => b.getCell x y ≠ 0

/-- Board.clearLines inner shift: row y := row y-1, cell by cell. -/
def copyRowDown (b : Board) (y : Nat) : Board :=
  (List.range b.width).foldl
    (fun bb x => bb.setCell x y (bb.getCell x ((y : Int) - 1))) b

/-- Board.clearLines body for one recorded line index: shift rows
lineY, lineY-1, ..., 1 down from the row above, then zero row 0. -/
def clearOneLine (b : Board) (lineY : Nat) : Board :=
  let b1 := ((List.range' 1 lineY).reverse).foldl copyRowDown b
  (List.range b1.width).foldl (fun bb x => bb.setCell x 0 0) b1

/-- Board.clearLines(): record the filled row indices top-to-bottom, then
process them in reversed (bottom-to-top) order; returns the count and the
resulting board. -/
def clearLines (b : Board) : Nat × Board :=
  let linesToClear := (List.range b.height).filter fun y => b.isRowFilled y
  (linesToClear.length, (linesToClear.reverse).foldl clearOneLine b)

/-- Board.clear(): zero the whole grid. -/
def clear (b : Board) : Board :=
  { b with grid := List.replicate (b.width * b.height) 0 }

/-- Board.getHardDropDistance probe loop, with fuel for termination; the
fuel b.height + 8 dominates every possible descent of a piece whose shape
has at least one occupied cell, so the loop never exhausts it in use. -/
def hardDropAux (b : Board) (p : Piece) (x y : Int) : Nat → Nat → Nat
  | 0, distance => distance
  | fuel + 1, distance =>
    if b.isValidPosition p x (y + distance + 1) then
      hardDropAux b p x y fuel (distance + 1)
    else distance

/-- Board.getHardDropDistance(piece, x, y): largest probe-reached distance. -/
def getHardDropDistance (b : Board) (p : Piece) (x y : Int) : Nat :=
  hardDropAux b p x y (b.height + 8) 0

end Board

/-- PieceGenerator.ts state: the shuffle-bag, the preview queue, the
configured preview length, and the oracle of future shuffle outcomes
standing in for Math.random (each entry is what `shuffleArray` over the
seven kinds would have returned at the corresponding refill). -/
structure PieceGenerator where
  bag : List PieceType
  preview : List Piece
  previewCount : Nat
  supply : List (List PieceType)
  deriving DecidableEq, Repr

namespace PieceGenerator

/-- PieceGenerator.refillBag(): install the next shuffle outcome as the bag
(an exhausted oracle leaves the bag empty; never reached in the uses below). -/
def refillBag (g : PieceGenerator) : PieceGenerator :=
  match g.supply with
  | s :: rest => { g with bag := s, supply := rest }
  | [] => { g with bag := [] }

/-- PieceGenerator.generatePiece(): refill when the bag is empty, then pop
the bag's last element (JS Array.pop) as a fresh rotation-0 piece.  The
fallback for a popped empty bag (JS `undefined`) is an arbitrary piece;
it is never reached when the oracle supplies nonempty bags. -/
def generatePiece (g : PieceGenerator) : Piece × PieceGenerator :=
  let g1 := if g.bag.isEmpty then g.refillBag else g
  match g1.bag.getLast? with
  | some t => (⟨t, 0⟩, { g1 with bag := g1.bag.dropLast })
  | none => (⟨.I, 0⟩, g1)

/-- PieceGenerator constructor / reset inner loop: push `n` freshly
generated pieces onto the preview queue. -/
def fillPreview : PieceGenerator → Nat → PieceGenerator
  | g, 0 => g
  | g, n + 1 =>
    let (p, g1) := g.generatePiece
    fillPreview { g1 with preview := g1.preview ++ [p] } n

/-- PieceGenerator.next(): shift the preview head, push one fresh piece
(the empty-preview fallback mirrors JS `shift()!` and is unreachable for
previewCount ≥ 1 as used by GameController). -/
def next (g : PieceGenerator) : Piece × PieceGenerator :=
  match g.preview with
  | [] => (⟨.I, 0⟩, g)
  | p :: rest =>
    let (q, g1) := generatePiece { g with preview := rest }
    (p, { g1 with preview := g1.preview ++ [q] })

/-- PieceGenerator.getPreview(): snapshot copy of the queue. -/
def getPreview (g : PieceGenerator) : List Piece := g.preview

/-- PieceGenerator.reset(): empty bag and preview, then refill the preview
to the configured length with fresh draws. -/
def reset (g : PieceGenerator) : PieceGenerator :=
  fillPreview { g with bag := [], preview := [] } g.previewCount

end PieceGenerator

/-- types.ts: enum GameStatus. -/
inductive GameStatus where
  | MENU | PLAYING | PAUSED | GAME_OVER
  deriving DecidableEq, Repr

/-- types.ts: enum GameEvent (the event name; payloads are dropped since
every claim concerns which events are emitted and how many times). -/
inductive GameEvent where
  | GAME_START | GAME_PAUSE | GAME_RESUME | GAME_OVER
  | PIECE_SPAWN | PIECE_MOVE | PIECE_ROTATE | PIECE_LOCK
  | LINE_CLEARED | LEVEL_UP | SCORE_UPDATE | HOLD_PIECE
  deriving DecidableEq, Repr

/-- types.ts: interface GameState. -/
structure GameState where
  status : GameStatus
  board : Board
  currentPiece : Option Piece
  currentX : Int
  currentY : Int
  holdPiece : Option Piece
  canHold : Bool
  nextPieces : List Piece
  score : Nat
  lines : Nat
  level : Nat
  dropInterval : Int
  lastDropTime : Int
  isDirty : Bool
  deriving DecidableEq, Repr

/-- The mutable world of GameActions: the store's GameState plus the
piece generator (both are mutated by the actions). -/
structure Machine where
  game : GameState
  gen : PieceGenerator
  deriving DecidableEq, Repr

/-- Result of running one action: the new world, the sequence of EventBus
emissions, and how many Store.setState calls were made (0 means the state
reference was never replaced and no subscriber/dirty-flag activity
occurred). -/
structure Out where
  m : Machine
  events : List GameEvent
  stores : Nat
  deriving DecidableEq, Repr

namespace GameActions

/-- GameActions.calculateLineScore(lines, level). -/
def calculateLineScore (lines level : Nat) : Nat :=
  SCORE_VALUES lines * level

/-- GameActions.calculateDropInterval(level). -/
def calculateDropInterval (level : Nat) : Int :=
  max (INITIAL_DROP_INTERVAL - ((level : Int) - 1) * DROP_INTERVAL_DECREASE)
    MIN_DROP_INTERVAL

/-- GameActions.canMove(state): status is PLAYING and a piece exists. -/
def canMove (s : GameState) : Bool :=
  match s.status, s.currentPiece with
  | .PLAYING, some _ => true
  | _, _ => false

/-- GameActions.startGame(): no-op when already PLAYING; otherwise reset
the generator, clear the board in place, draw the first piece and replace
the whole state (Date.now() is the `now` argument). -/
def startGame (m : Machine) (now : Int) : Out :=
  let s := m.game
  if s.status = .PLAYING then ⟨m, [], 0⟩
  else
    let gen1 := m.gen.reset
    let board1 := s.board.clear
    let (firstPiece, gen2) := gen1.next
    let nextPieces := gen2.getPreview
    let s1 : GameState :=
      { status := .PLAYING, board := board1, currentPiece := some firstPiece,
        currentX := SPAWN_X, currentY := SPAWN_Y, holdPiece := none,
        canHold := true, nextPieces := nextPieces, score := 0, lines := 0,
        level := 1, dropInterval := INITIAL_DROP_INTERVAL,
        lastDropTime := now, isDirty := true }
    ⟨⟨s1, gen2⟩, [.GAME_START, .PIECE_SPAWN], 1⟩

/-- GameActions.pause(). -/
def pause (m : Machine) (_now : Int) : Out :=
  let s := m.game
  if s.status = .PLAYING then
    ⟨⟨{ s with status := .PAUSED, isDirty := true }, m.gen⟩, [.GAME_PAUSE], 1⟩
  else ⟨m, [], 0⟩

/-- GameActions.resume(). -/
def resume (m : Machine) (now : Int) : Out :=
  let s := m.game
  if s.status = .PAUSED then
    ⟨⟨{ s with status := .PLAYING, lastDropTime := now, isDirty := true },
      m.gen⟩, [.GAME_RESUME], 1⟩
  else ⟨m, [], 0⟩

/-- GameActions.spawnNextPiece(): draw, then either game over (invalid at
spawn) or install the new piece at the spawn cell with canHold reset. -/
def spawnNextPiece (m : Machine) (now : Int) : Out :=
  let s := m.game
  let (nextPiece, gen2) := m.gen.next
  let nextPieces := gen2.getPreview
  if ¬ s.board.isValidPosition nextPiece SPAWN_X SPAWN_Y then
    ⟨⟨{ s with status := .GAME_OVER, currentPiece := none, isDirty := true },
      gen2⟩, [.GAME_OVER], 1⟩
  else
    ⟨⟨{ s with
        currentPiece := some nextPiece, currentX := SPAWN_X,
        currentY := SPAWN_Y, canHold := true, nextPieces := nextPieces,
        lastDropTime := now, isDirty := true }, gen2⟩, [.PIECE_SPAWN], 1⟩

/-- GameActions.lockPiece(): place the piece (board mutated in place),
emit piece-lock, clear lines, update score/lines/level/interval when
anything cleared, then spawn. -/
def lockPiece (m : Machine) (now : Int) : Out :=
  let s := m.game
  match s.currentPiece with
  | none => ⟨m, [], 0⟩
  | some p =>
    let board1 := s.board.placePiece p s.currentX s.currentY
    let (linesCleared, board2) := board1.clearLines
    let s1 := { s with board := board2 }
    if linesCleared > 0 then
      let lineScore := calculateLineScore linesCleared s.level
      let newLines := s.lines + linesCleared
      let newLevel := newLines / LINES_PER_LEVEL + 1
      let leveledUp := newLevel > s.level
      let s2 := { s1 with
                  score := s.score + lineScore, lines := newLines,
                  level := newLevel,
                  dropInterval := calculateDropInterval newLevel }
      let evs := [GameEvent.PIECE_LOCK, .LINE_CLEARED, .SCORE_UPDATE] ++
        (if leveledUp then [GameEvent.LEVEL_UP] else [])
      let o := spawnNextPiece ⟨s2, m.gen⟩ now
      ⟨o.m, evs ++ o.events, 1 + o.stores⟩
    else
      let o := spawnNextPiece ⟨s1, m.gen⟩ now
      ⟨o.m, [GameEvent.PIECE_LOCK] ++ o.events, o.stores⟩

/-- GameActions.moveLeft(). -/
def moveLeft (m : Machine) (_now : Int) : Out :=
  let s := m.game
  if canMove s then
    match s.currentPiece with
    | some p =>
      let newX := s.currentX - 1
      if s.board.isValidPosition p newX s.currentY then
        ⟨⟨{ s with currentX := newX, isDirty := true }, m.gen⟩,
          [.PIECE_MOVE], 1⟩
      else ⟨m, [], 0⟩
    | none => ⟨m, [], 0⟩
  else ⟨m, [], 0⟩

/-- GameActions.moveRight(). -/
def moveRight (m : Machine) (_now : Int) : Out :=
  let s := m.game
  if canMove s then
    match s.currentPiece with
    | some p =>
      let newX := s.currentX + 1
      if s.board.isValidPosition p newX s.currentY then
        ⟨⟨{ s with currentX := newX, isDirty := true }, m.gen⟩,
          [.PIECE_MOVE], 1⟩
      else ⟨m, [], 0⟩
    | none => ⟨m, [], 0⟩
  else ⟨m, [], 0⟩

/-- GameActions.moveDown(): returns whether the piece moved (false both
when the guard failed and when the piece locked instead). -/
def moveDown (m : Machine) (now : Int) : Bool × Out :=
  let s := m.game
  if canMove s then
    match s.currentPiece with
    | some p =>
      let newY := s.currentY + 1
      if s.board.isValidPosition p s.currentX newY then
        (true,
          ⟨⟨{ s with currentY := newY, lastDropTime := now, isDirty := true },
            m.gen⟩, [.PIECE_MOVE], 1⟩)
      else (false, lockPiece m now)
    | none => (false, ⟨m, [], 0⟩)
  else (false, ⟨m, [], 0⟩)

/-- GameActions.softDrop(): moveDown, then award 1 point when it moved
(the score it adds to was read before moveDown ran, as in the source). -/
def softDrop (m : Machine) (now : Int) : Out :=
  let s := m.game
  if canMove s then
    let (moved, o1) := moveDown m now
    if moved then
      let newScore := s.score + SOFT_DROP_SCORE
      ⟨⟨{ o1.m.game with score := newScore }, o1.m.gen⟩,
        o1.events ++ [.SCORE_UPDATE], o1.stores + 1⟩
    else o1
  else ⟨m, [], 0⟩

/-- GameActions.hardDrop(): move by the full drop distance with 2 points
per cell when the distance is positive, then lock unconditionally. -/
def hardDrop (m : Machine) (now : Int) : Out :=
  let s := m.game
  if canMove s then
    match s.currentPiece with
    | some p =>
      let distance := s.board.getHardDropDistance p s.currentX s.currentY
      let step :=
        if distance > 0 then
          let newY := s.currentY + distance
          let dropScore := distance * HARD_DROP_SCORE
          (⟨⟨{ s with
              currentY := newY, score := s.score + dropScore,
              isDirty := true }, m.gen⟩, [GameEvent.SCORE_UPDATE], 1⟩ : Out)
        else ⟨m, [], 0⟩
      let o2 := lockPiece step.m now
      ⟨o2.m, step.events ++ o2.events, step.stores + o2.stores⟩
    | none => ⟨m, [], 0⟩
  else ⟨m, [], 0⟩

/-- GameActions.rotate wall-kick table, in source order. -/
def wallKickOffsets : List (Int × Int) :=
  [(-1, 0), (1, 0), (0, -1), (-2, 0), (2, 0)]

/-- GameActions.rotate kick loop: try each offset against the rotated
clone `p` at the current position; commit rotation and shift on the first
valid one; fall through to a complete no-op. -/
def rotateKicks (m : Machine) (p : Piece) : List (Int × Int) → Out
  | [] => ⟨m, [], 0⟩
  | (ox, oy) :: rest =>
    let s := m.game
    let newX := s.currentX + ox
    let newY := s.currentY + oy
    if s.board.isValidPosition p newX newY then
      ⟨⟨{ s with
          currentPiece := some p, currentX := newX, currentY := newY,
          isDirty := true }, m.gen⟩, [.PIECE_ROTATE], 1⟩
    else rotateKicks m p rest

/-- GameActions.rotate(direction): clone-and-rotate, try the unchanged
position first, then the wall-kick offsets in order. -/
def rotate (m : Machine) (dir : RotDir) (_now : Int) : Out :=
  let s := m.game
  if canMove s then
    match s.currentPiece with
    | some p0 =>
      let p := p0.rotate dir
      if s.board.isValidPosition p s.currentX s.currentY then
        ⟨⟨{ s with currentPiece := some p, isDirty := true }, m.gen⟩,
          [.PIECE_ROTATE], 1⟩
      else rotateKicks m p wallKickOffsets
    | none => ⟨m, [], 0⟩
  else ⟨m, [], 0⟩

/-- GameActions.hold(): guarded by canMove and canHold; first hold stores
the falling piece and draws a fresh one, later holds swap; both re-create
the pieces at rotation 0 and reset the position to the spawn cell.  No
validity check is made on the incoming piece. -/
def hold (m : Machine) (_now : Int) : Out :=
  let s := m.game
  if canMove s && s.canHold then
    match s.currentPiece with
    | some cur =>
      match s.holdPiece with
      | none =>
        let (nextPiece, gen2) := m.gen.next
        let nextPieces := gen2.getPreview
        ⟨⟨{ s with
            currentPiece := some nextPiece, currentX := SPAWN_X,
            currentY := SPAWN_Y, holdPiece := some ⟨cur.type, 0⟩,
            canHold := false, nextPieces := nextPieces, isDirty := true },
          gen2⟩, [.HOLD_PIECE], 1⟩
      | some hp =>
        ⟨⟨{ s with
            currentPiece := some ⟨hp.type, 0⟩, currentX := SPAWN_X,
            currentY := SPAWN_Y, holdPiece := some ⟨cur.type, 0⟩,
            canHold := false, isDirty := true }, m.gen⟩, [.HOLD_PIECE], 1⟩
    | none => ⟨m, [], 0⟩
  else ⟨m, [], 0⟩

end GameActions

/-- The seven piece kinds, in the enum's declaration order
(Object.values(PieceType)). -/
def allKinds : List PieceType := [.I, .O, .T, .S, .Z, .J, .L]

/-- The public entry points of the Action Layer (GameActions' public
methods; moveDown is also driven directly by the gravity loop). -/
inductive PubAct where
  | startA | pauseA | resumeA | leftA | rightA | downA | softA | hardA
  | rotA (dir : RotDir) | holdA
  deriving DecidableEq, Repr

/-- Run one public action (paired with its Date.now() reading) and keep
the resulting world. -/
def step (m : Machine) (a : PubAct × Int) : Machine :=
  match a.1 with
  | .startA => (GameActions.startGame m a.2).m
  | .pauseA => (GameActions.pause m a.2).m
  | .resumeA => (GameActions.resume m a.2).m
  | .leftA => (GameActions.moveLeft m a.2).m
  | .rightA => (GameActions.moveRight m a.2).m
  | .downA => (GameActions.moveDown m a.2).2.m
  | .softA => (GameActions.softDrop m a.2).m
  | .hardA => (GameActions.hardDrop m a.2).m
  | .rotA dir => (GameActions.rotate m dir a.2).m
  | .holdA => (GameActions.hold m a.2).m

/-- Run a sequence of public actions. -/
def run (m : Machine) (acts : List (PubAct × Int)) : Machine :=
  acts.foldl step m

/-- GameController's initial world: the MENU GameState it builds at
construction time, plus a generator whose shuffle oracle is `supply`
(previewCount 1, as in `new PieceGenerator(1)`; the constructor-time
preview fill is irrelevant because startGame resets the generator, so the
initial bag/preview are left empty here). -/
def initMachine (supply : List (List PieceType)) : Machine :=
  { game := { status := .MENU, board := Board.mk0 BOARD_WIDTH BOARD_HEIGHT,
              currentPiece := none, currentX := 0, currentY := 0,
              holdPiece := none, canHold := true, nextPieces := [],
              score := 0, lines := 0, level := 1,
              dropInterval := INITIAL_DROP_INTERVAL, lastDropTime := 0,
              isDirty := true },
    gen := { bag := [], preview := [], previewCount := 1, supply := supply } }

/-- Observer for statements: the contents of row y, left to right. -/
def Board.rowCells (b : Board) (y : Nat) : List Nat :=
  (List.range b.width).map fun x => b.getCell x y

/-- The board of the C3 line-clear test: rows 0-16 empty, row 17 partially
filled (six cells), rows 18 and 19 completely full. -/
def c3row17 : List Nat := [1, 1, 1, 1, 1, 1, 0, 0, 0, 0, 0, 0]

/-- C3 failing input: H = 20, W = 12, rows 18 and 19 full (tags 2 and 3),
row 17 = c3row17, everything above empty. -/
def c3Board : Board :=
  ⟨12, 20, List.replicate 204 0 ++ c3row17 ++ List.replicate 12 2 ++
    List.replicate 12 3⟩

/-- A reachable PAUSED world: startGame then pause. -/
def c4M : Machine := run (initMachine [allKinds]) [(.startA, 0), (.pauseA, 0)]

/-- C5 witness: a PLAYING world on an empty board; the base rotation of
the spawned T piece is already valid, so the first branch commits. -/
def c5M : Machine := run (initMachine [[.O, .T]]) [(.startA, 0)]

/-- C6 witness board: bottom row full except column 5. -/
def c6Board : Board :=
  ⟨12, 20, List.replicate 228 0 ++ [1, 1, 1, 1, 1, 0, 1, 1, 1, 1, 1, 1]⟩

/-- C6 witness world: a vertical I at column 5, resting so that locking it
completes exactly the bottom row at level 1. -/
def c6M : Machine :=
  { game := { status := .PLAYING, board := c6Board,
              currentPiece := some ⟨.I, 1⟩, currentX := 3, currentY := 16,
              holdPiece := none, canHold := true, nextPieces := [],
              score := 0, lines := 0, level := 1, dropInterval := 1000,
              lastDropTime := 0, isDirty := false },
    gen := { bag := [], preview := [⟨.O, 0⟩], previewCount := 1,
             supply := [allKinds] } }

/-- A reachable world whose board is completely full (for the game-over
witness): not needed to be reachable — the claim quantifies over all
states — so built directly. -/
def fullM : Machine :=
  { game := { status := .PLAYING, board := ⟨12, 20, List.replicate 240 1⟩,
              currentPiece := some ⟨.O, 0⟩, currentX := SPAWN_X,
              currentY := 0, holdPiece := none, canHold := true,
              nextPieces := [], score := 0, lines := 0, level := 1,
              dropInterval := 1000, lastDropTime := 0, isDirty := false },
    gen := { bag := [], preview := [⟨.T, 0⟩], previewCount := 1,
             supply := [allKinds] } }

/-- The sequence of piece kinds produced by n successive generatePiece
calls (`next()` forwards exactly this sequence through the FIFO preview,
so these are the draws the game consumes, in order). -/
def drawSeq (g : PieceGenerator) : Nat → List PieceType
  | 0 => []
  | n + 1 =>
    let r := g.generatePiece
    r.1.type :: drawSeq r.2 n

/-- The collision invariant of spec §3: on the real 12x20 board, whenever
a current piece exists it sits at a position isValidPosition accepts. -/
def Inv (m : Machine) : Prop :=
  m.game.board.width = BOARD_WIDTH ∧
  m.game.board.height = BOARD_HEIGHT ∧
  ∀ p, m.game.currentPiece = some p →
    m.game.board.isValidPosition p m.game.currentX m.game.currentY = true

/-- Bool observer of a broken collision invariant: a current piece exists
and isValidPosition rejects it at its current position. -/
def violatesInv (m : Machine) : Bool :=
  match m.game.currentPiece with
  | some p => !(m.game.board.isValidPosition p m.game.currentX
      m.game.currentY)
  | none => false

/-- Shuffle outcomes for the counterexample run: three permutation bags.
Bags are drawn from the back (JS Array.pop), so the draw order of the
first two bags is T, O, S, Z, J, L, I and of the third I, L, J, ... -/
def cexBag12 : List PieceType := [.I, .L, .J, .Z, .S, .O, .T]

/-- Third bag of the counterexample supply. -/
def cexBag3 : List PieceType := [.O, .T, .S, .Z, .J, .L, .I]

/-- The counterexample's shuffle oracle. -/
def cexSupply : List (List PieceType) := [cexBag12, cexBag12, cexBag3]

/-- The counterexample's action script: hold the opening T, wall a two
column tower in columns 5-6 out of rotated O/S/Z/J/L/I/T drops, park the
next five pieces at the edges, top the tower with a flat I whose cells
reach row 2, and hold again: the swapped-back T is re-spawned at (4,0)
where its bottom row collides with the flat I. -/
def cexActs : List PubAct :=
  [.startA, .holdA, .hardA,
   .rotA .clockwise, .hardA, .rotA .clockwise, .hardA,
   .rotA .clockwise, .hardA, .rotA .clockwise, .hardA,
   .rotA .clockwise, .hardA, .rotA .clockwise, .hardA,
   .leftA, .leftA, .leftA, .leftA, .hardA,
   .leftA, .leftA, .leftA, .leftA, .hardA,
   .rightA, .rightA, .rightA, .rightA, .hardA,
   .rightA, .rightA, .rightA, .rightA, .hardA,
   .rightA, .rightA, .rightA, .rightA, .hardA,
   .hardA, .holdA]

/-- The world reached by the counterexample script. -/
def cexM : Machine :=
  run (initMachine cexSupply) (cexActs.map fun a => (a, 0))

lemma canMove_false {s : GameState}
    (h : s.status ≠ GameStatus.PLAYING ∨ s.currentPiece = none) :
    GameActions.canMove s = false := by
  unfold GameActions.canMove
  rcases h with h | h
  · cases hst : s.status <;> cases hcp : s.currentPiece <;> simp_all
  · cases hst : s.status <;> simp_all

/-- C1: in any state whose status is not PLAYING or whose current piece is
null, each piece-mutating action (moveLeft, moveRight, moveDown, softDrop,
hardDrop, rotate in either direction, hold) returns the world unchanged,
makes no setState call, and emits no event. -/
theorem claim_C1 (m : Machine) (now : Int) (dir : RotDir)
    (h : m.game.status ≠ GameStatus.PLAYING ∨ m.game.currentPiece = none) :
    GameActions.moveLeft m now = ⟨m, [], 0⟩ ∧
    GameActions.moveRight m now = ⟨m, [], 0⟩ ∧
    GameActions.moveDown m now = (false, ⟨m, [], 0⟩) ∧
    GameActions.softDrop m now = ⟨m, [], 0⟩ ∧
    GameActions.hardDrop m now = ⟨m, [], 0⟩ ∧
    GameActions.rotate m dir now = ⟨m, [], 0⟩ ∧
    GameActions.hold m now = ⟨m, [], 0⟩ := by
  have hcm := canMove_false h
  refine ⟨?_, ?_, ?_, ?_, ?_, ?_, ?_⟩ <;>
    simp [GameActions.moveLeft, GameActions.moveRight, GameActions.moveDown,
      GameActions.softDrop, GameActions.hardDrop, GameActions.rotate,
      GameActions.hold, hcm]

/-- C1 witness: the MENU state GameController starts in satisfies the
guard hypothesis, and e.g. moveLeft leaves it fully untouched. -/
theorem claim_C1_witness :
    GameActions.moveLeft (initMachine []) 0 = ⟨initMachine [], [], 0⟩ :=
  (claim_C1 (initMachine []) 0 .clockwise (Or.inl (by decide))).1

set_option maxRecDepth 40000 in
/-- C3: the code disagrees with the claim.  clearLines does return 2, but
because the recorded row indices are processed in reversed (bottom-to-top)
order after each shift has already moved the remaining full rows down, the
former full row 18 survives and ends at row 19 — still completely full —
while the partial row-17 contents are destroyed instead of ending at
row 19.  The claim (and spec §4.1's own intent of clearing every full
row) requires row 19 = old row 17, row 18 empty, and no full row left. -/
theorem claim_C3 :
    (c3Board.clearLines).1 = 2 ∧
    Board.rowCells (c3Board.clearLines).2 19 = List.replicate 12 2 ∧
    Board.rowCells (c3Board.clearLines).2 18 = List.replicate 12 0 ∧
    Board.rowCells (c3Board.clearLines).2 17 = List.replicate 12 0 ∧
    (c3Board.clearLines).2.isRowFilled 19 = true := by
  refine ⟨?_, ?_, ?_, ?_, ?_⟩ <;> decide

/-- C4 counterexample: calling startGame while PAUSED is not a no-op — it
replaces the state (one setState), emits events, and switches the status
to PLAYING. -/
theorem claim_C4_cex :
    c4M.game.status = .PAUSED ∧
    (GameActions.startGame c4M 0).m.game.status = .PLAYING ∧
    (GameActions.startGame c4M 0).stores = 1 ∧
    (GameActions.startGame c4M 0).events = [.GAME_START, .PIECE_SPAWN] := by
  refine ⟨?_, ?_, ?_, ?_⟩ <;> decide

/-- C4 (amended): startGame is a guaranteed no-op only while PLAYING; from
every other status — MENU, GAME_OVER, and also PAUSED — it fully
reinitializes the state (fresh board, zero score/lines, level 1, no hold)
and transitions to PLAYING.  So PAUSED→PLAYING is additionally reachable
through startGame, not only through resume. -/
theorem claim_C4 (m : Machine) (now : Int) :
    (m.game.status = .PLAYING → GameActions.startGame m now = ⟨m, [], 0⟩) ∧
    (m.game.status ≠ .PLAYING →
      (GameActions.startGame m now).m.game.status = .PLAYING ∧
      (GameActions.startGame m now).m.game.board = m.game.board.clear ∧
      (GameActions.startGame m now).m.game.score = 0 ∧
      (GameActions.startGame m now).m.game.lines = 0 ∧
      (GameActions.startGame m now).m.game.level = 1 ∧
      (GameActions.startGame m now).m.game.holdPiece = none ∧
      (GameActions.startGame m now).m.game.canHold = true ∧
      (GameActions.startGame m now).m.game.currentX = SPAWN_X ∧
      (GameActions.startGame m now).m.game.currentY = SPAWN_Y) := by
  constructor
  · intro h
    simp [GameActions.startGame, h]
  · intro h
    simp [GameActions.startGame, h]

/-- C4 witness: instantiated at the reachable PAUSED world. -/
theorem claim_C4_witness :
    (GameActions.startGame c4M 0).m.game.status = .PLAYING :=
  ((claim_C4 c4M 0).2 (by decide)).1

lemma canMove_true {s : GameState} {p : Piece}
    (hst : s.status = GameStatus.PLAYING) (hcp : s.currentPiece = some p) :
    GameActions.canMove s = true := by
  unfold GameActions.canMove
  rw [hst, hcp]

/-- The kick loop commits at exactly the first offset (in list order) whose
shifted position validates the rotated clone, and is a complete no-op when
none does. -/
lemma rotateKicks_eq_find (m : Machine) (p : Piece) (l : List (Int × Int)) :
    GameActions.rotateKicks m p l =
      match l.find? (fun o => m.game.board.isValidPosition p
          (m.game.currentX + o.1) (m.game.currentY + o.2)) with
      | some o =>
        ⟨⟨{ m.game with
            currentPiece := some p, currentX := m.game.currentX + o.1,
            currentY := m.game.currentY + o.2, isDirty := true }, m.gen⟩,
          [.PIECE_ROTATE], 1⟩
      | none => ⟨m, [], 0⟩ := by
  induction l with
  | nil => rfl
  | cons o rest ih =>
    obtain ⟨ox, oy⟩ := o
    by_cases hv : m.game.board.isValidPosition p (m.game.currentX + ox)
        (m.game.currentY + oy)
    · simp [GameActions.rotateKicks, List.find?, hv]
    · have hstep : GameActions.rotateKicks m p ((ox, oy) :: rest) =
          GameActions.rotateKicks m p rest := by
        simp [GameActions.rotateKicks, hv]
      have hfind : List.find? (fun o => m.game.board.isValidPosition p
            (m.game.currentX + o.1) (m.game.currentY + o.2))
            ((ox, oy) :: rest) =
          List.find? (fun o => m.game.board.isValidPosition p
            (m.game.currentX + o.1) (m.game.currentY + o.2)) rest := by
        simp [List.find?, hv]
      rw [hstep, hfind]
      exact ih

/-- C5: in a PLAYING state with a current piece, rotate first tests the
rotated clone at the unchanged position; failing that it commits the
rotation together with the first offset of (-1,0),(1,0),(0,-1),(-2,0),
(2,0) — in exactly that order — whose shifted position validates; and if
the base position and all five offsets fail it performs no mutation and
emits no event. -/
theorem claim_C5 (m : Machine) (dir : RotDir) (now : Int) (p0 : Piece)
    (hst : m.game.status = .PLAYING) (hcp : m.game.currentPiece = some p0) :
    GameActions.rotate m dir now =
      if m.game.board.isValidPosition (p0.rotate dir) m.game.currentX
          m.game.currentY then
        ⟨⟨{ m.game with
            currentPiece := some (p0.rotate dir), isDirty := true }, m.gen⟩,
          [.PIECE_ROTATE], 1⟩
      else
        match GameActions.wallKickOffsets.find?
            (fun o => m.game.board.isValidPosition (p0.rotate dir)
              (m.game.currentX + o.1) (m.game.currentY + o.2)) with
        | some o =>
          ⟨⟨{ m.game with
              currentPiece := some (p0.rotate dir),
              currentX := m.game.currentX + o.1,
              currentY := m.game.currentY + o.2, isDirty := true }, m.gen⟩,
            [.PIECE_ROTATE], 1⟩
        | none => ⟨m, [], 0⟩ := by
  have hcm := canMove_true hst hcp
  by_cases hv : m.game.board.isValidPosition (p0.rotate dir) m.game.currentX
      m.game.currentY
  · simp [GameActions.rotate, hcm, hcp, hv]
  · rw [if_neg hv]
    have hred : GameActions.rotate m dir now =
        GameActions.rotateKicks m (p0.rotate dir)
          GameActions.wallKickOffsets := by
      simp [GameActions.rotate, hcm, hcp, hv]
    rw [hred]
    exact rotateKicks_eq_find m (p0.rotate dir) GameActions.wallKickOffsets

set_option maxRecDepth 10000 in
/-- C5 witness theorem: the characterization evaluated at c5M. -/
theorem claim_C5_witness :
    GameActions.rotate c5M .clockwise 0 =
      ⟨⟨{ c5M.game with
          currentPiece := some ((⟨.T, 0⟩ : Piece).rotate .clockwise),
          isDirty := true }, c5M.gen⟩, [.PIECE_ROTATE], 1⟩ := by
  have h := claim_C5 c5M .clockwise 0 ⟨.T, 0⟩ (by decide) (by decide)
  rw [h]
  decide

/-- spawnNextPiece never touches score, line total, level or interval. -/
lemma spawnNextPiece_preserves (m : Machine) (now : Int) :
    (GameActions.spawnNextPiece m now).m.game.score = m.game.score ∧
    (GameActions.spawnNextPiece m now).m.game.lines = m.game.lines ∧
    (GameActions.spawnNextPiece m now).m.game.level = m.game.level ∧
    (GameActions.spawnNextPiece m now).m.game.dropInterval =
      m.game.dropInterval := by
  unfold GameActions.spawnNextPiece
  rcases hnext : m.gen.next with ⟨np, g2⟩
  simp only [hnext]
  split <;> simp

/-- C6: whenever a lock clears k rows with 1 ≤ k ≤ 4, the score increases
by exactly table[k] × level-at-lock-time (table 1→100, 2→300, 3→500,
4→800), the line total increases by k, the new level is
floor(newLines / 10) + 1, and the new gravity interval is
max(1000 − (newLevel − 1)·50, 100). -/
theorem claim_C6 (m : Machine) (now : Int) (p : Piece) (k : Nat)
    (hcp : m.game.currentPiece = some p)
    (hkdef : ((m.game.board.placePiece p m.game.currentX
      m.game.currentY).clearLines).1 = k)
    (hk1 : 1 ≤ k) (hk4 : k ≤ 4) :
    (GameActions.lockPiece m now).m.game.score =
      m.game.score + SCORE_VALUES k * m.game.level ∧
    (GameActions.lockPiece m now).m.game.lines = m.game.lines + k ∧
    (GameActions.lockPiece m now).m.game.level =
      (m.game.lines + k) / 10 + 1 ∧
    (GameActions.lockPiece m now).m.game.dropInterval =
      max (1000 - (((m.game.lines + k) / 10 + 1 : Nat) - 1 : Int) * 50)
        100 := by
  rcases hcl : (m.game.board.placePiece p m.game.currentX
      m.game.currentY).clearLines with ⟨lc, b2⟩
  have hlck : lc = k := by rw [← hkdef, hcl]
  subst hlck
  have hpos : lc > 0 := hk1
  have hsp := spawnNextPiece_preserves
  unfold GameActions.lockPiece
  simp only [hcp, hcl, hpos, if_true, gt_iff_lt]
  refine ⟨?_, ?_, ?_, ?_⟩
  · rw [(hsp _ _).1]
    rfl
  · rw [(hsp _ _).2.1]
  · rw [(hsp _ _).2.2.1]
    rfl
  · rw [(hsp _ _).2.2.2]
    simp [GameActions.calculateDropInterval, INITIAL_DROP_INTERVAL,
      DROP_INTERVAL_DECREASE, MIN_DROP_INTERVAL, LINES_PER_LEVEL]

/-- C6 witness theorem: locking there adds exactly 100 = table[1] × 1. -/
theorem claim_C6_witness :
    (GameActions.lockPiece c6M 0).m.game.score =
      c6M.game.score + SCORE_VALUES 1 * c6M.game.level :=
  (claim_C6 c6M 0 ⟨.I, 1⟩ 1 rfl (by decide) (by decide) (by decide)).1

/-- Spawn with a colliding next piece: the game-over branch, verbatim. -/
lemma spawnNextPiece_invalid (g : GameState) (gen : PieceGenerator)
    (now : Int)
    (hv : ¬ g.board.isValidPosition (gen.next).1 SPAWN_X SPAWN_Y) :
    GameActions.spawnNextPiece ⟨g, gen⟩ now =
      ⟨⟨{ g with
          status := .GAME_OVER, currentPiece := none,
          isDirty := true }, (gen.next).2⟩, [.GAME_OVER], 1⟩ := by
  unfold GameActions.spawnNextPiece
  rcases hnext : gen.next with ⟨np, g2⟩
  rw [hnext] at hv
  simp only [hnext]
  simp [hv]

/-- Spawn with a fitting next piece: the continue branch, verbatim. -/
lemma spawnNextPiece_valid (g : GameState) (gen : PieceGenerator)
    (now : Int)
    (hv : g.board.isValidPosition (gen.next).1 SPAWN_X SPAWN_Y) :
    GameActions.spawnNextPiece ⟨g, gen⟩ now =
      ⟨⟨{ g with
          currentPiece := some (gen.next).1, currentX := SPAWN_X,
          currentY := SPAWN_Y, canHold := true,
          nextPieces := (gen.next).2.getPreview, lastDropTime := now,
          isDirty := true }, (gen.next).2⟩, [.PIECE_SPAWN], 1⟩ := by
  unfold GameActions.spawnNextPiece
  rcases hnext : gen.next with ⟨np, g2⟩
  rw [hnext] at hv
  simp only [hnext]
  simp [hv]

set_option maxHeartbeats 1000000 in
/-- Every lockPiece call either keeps the status and emits no game-over
event, or it hit the spawn-collision branch: status GAME_OVER, the piece
reference cleared, and exactly one game-over emission. -/
lemma lockPiece_char (m : Machine) (now : Int) :
    ((GameActions.lockPiece m now).m.game.status = m.game.status ∧
      (GameActions.lockPiece m now).events.count GameEvent.GAME_OVER = 0) ∨
    ((GameActions.lockPiece m now).m.game.status = .GAME_OVER ∧
      (GameActions.lockPiece m now).m.game.currentPiece = none ∧
      (GameActions.lockPiece m now).events.count GameEvent.GAME_OVER
        = 1) := by
  obtain ⟨g, gen⟩ := m
  unfold GameActions.lockPiece
  cases hcp : g.currentPiece with
  | none =>
    left
    constructor <;> simp [hcp]
  | some p =>
    rcases hcl : (g.board.placePiece p g.currentX g.currentY).clearLines
      with ⟨lc, b2⟩
    simp only [hcp, hcl]
    by_cases hpos : lc > 0
    · rw [if_pos hpos]
      by_cases hv : b2.isValidPosition (gen.next).1 SPAWN_X SPAWN_Y
      · rw [spawnNextPiece_valid _ _ now hv]
        left
        constructor
        · rfl
        · by_cases hl : (g.lines + lc) / LINES_PER_LEVEL + 1 > g.level <;>
            simp [hl]
      · rw [spawnNextPiece_invalid _ _ now hv]
        right
        refine ⟨rfl, rfl, ?_⟩
        by_cases hl : (g.lines + lc) / LINES_PER_LEVEL + 1 > g.level <;>
          simp [hl]
    · rw [if_neg hpos]
      by_cases hv : b2.isValidPosition (gen.next).1 SPAWN_X SPAWN_Y
      · rw [spawnNextPiece_valid _ _ now hv]
        exact Or.inl ⟨rfl, by simp⟩
      · rw [spawnNextPiece_invalid _ _ now hv]
        exact Or.inr ⟨rfl, rfl, by simp⟩

/-- Wrapping a lockPiece outcome behind extra game-over-free emissions
keeps the C7 dichotomy. -/
lemma lock_wrap (m0 : Machine) (now : Int) (st0 : GameStatus)
    (pre : List GameEvent) (hst : m0.game.status = st0)
    (hpre : pre.count GameEvent.GAME_OVER = 0) :
    ((GameActions.lockPiece m0 now).m.game.status = st0 ∧
      (pre ++ (GameActions.lockPiece m0 now).events).count
        GameEvent.GAME_OVER = 0) ∨
    ((GameActions.lockPiece m0 now).m.game.status = .GAME_OVER ∧
      (GameActions.lockPiece m0 now).m.game.currentPiece = none ∧
      (pre ++ (GameActions.lockPiece m0 now).events).count
        GameEvent.GAME_OVER = 1) := by
  rcases lockPiece_char m0 now with ⟨h1, h2⟩ | ⟨h1, h2, h3⟩
  · left
    exact ⟨by rw [← hst]; exact h1, by simp [List.count_append, hpre, h2]⟩
  · right
    exact ⟨h1, h2, by simp [List.count_append, hpre, h3]⟩

/-- moveLeft keeps the status and never emits game-over. -/
lemma moveLeft_facts (m : Machine) (now : Int) :
    (GameActions.moveLeft m now).m.game.status = m.game.status ∧
    GameEvent.GAME_OVER ∉ (GameActions.moveLeft m now).events := by
  unfold GameActions.moveLeft
  by_cases hcm : GameActions.canMove m.game <;>
    cases hcp : m.game.currentPiece <;> simp [hcm, hcp] <;> split <;> simp

/-- moveRight keeps the status and never emits game-over. -/
lemma moveRight_facts (m : Machine) (now : Int) :
    (GameActions.moveRight m now).m.game.status = m.game.status ∧
    GameEvent.GAME_OVER ∉ (GameActions.moveRight m now).events := by
  unfold GameActions.moveRight
  by_cases hcm : GameActions.canMove m.game <;>
    cases hcp : m.game.currentPiece <;> simp [hcm, hcp] <;> split <;> simp

/-- The kick loop keeps the status and never emits game-over. -/
lemma rotateKicks_facts (m : Machine) (p : Piece) (l : List (Int × Int)) :
    (GameActions.rotateKicks m p l).m.game.status = m.game.status ∧
    GameEvent.GAME_OVER ∉ (GameActions.rotateKicks m p l).events := by
  induction l with
  | nil => exact ⟨rfl, by simp [GameActions.rotateKicks]⟩
  | cons o rest ih =>
    obtain ⟨ox, oy⟩ := o
    by_cases hv : m.game.board.isValidPosition p (m.game.currentX + ox)
        (m.game.currentY + oy) <;> simp [GameActions.rotateKicks, hv, ih]

/-- rotate keeps the status and never emits game-over. -/
lemma rotate_facts (m : Machine) (dir : RotDir) (now : Int) :
    (GameActions.rotate m dir now).m.game.status = m.game.status ∧
    GameEvent.GAME_OVER ∉ (GameActions.rotate m dir now).events := by
  unfold GameActions.rotate
  by_cases hcm : GameActions.canMove m.game
  · cases hcp : m.game.currentPiece with
    | none => simp [hcm, hcp]
    | some p0 =>
      simp only [hcm, hcp, if_true]
      by_cases hv : m.game.board.isValidPosition (p0.rotate dir)
          m.game.currentX m.game.currentY
      · simp [hv]
      · simp [hv, rotateKicks_facts]
  · simp [hcm]

/-- hold keeps the status and never emits game-over. -/
lemma hold_facts (m : Machine) (now : Int) :
    (GameActions.hold m now).m.game.status = m.game.status ∧
    GameEvent.GAME_OVER ∉ (GameActions.hold m now).events := by
  unfold GameActions.hold
  by_cases hg : GameActions.canMove m.game && m.game.canHold <;>
    cases hcp : m.game.currentPiece <;> simp [hg, hcp] <;>
      cases hhp : m.game.holdPiece <;> simp [hhp]

/-- The C7 dichotomy for the gravity/soft-drop primitive moveDown. -/
lemma moveDown_char (m : Machine) (now : Int) :
    ((GameActions.moveDown m now).2.m.game.status = m.game.status ∧
      (GameActions.moveDown m now).2.events.count GameEvent.GAME_OVER
        = 0) ∨
    ((GameActions.moveDown m now).2.m.game.status = .GAME_OVER ∧
      (GameActions.moveDown m now).2.m.game.currentPiece = none ∧
      (GameActions.moveDown m now).2.events.count GameEvent.GAME_OVER
        = 1) := by
  unfold GameActions.moveDown
  by_cases hcm : GameActions.canMove m.game <;>
    cases hcp : m.game.currentPiece <;> simp [hcm, hcp]
  split
  · simp
  · exact lockPiece_char m now

/-- When moveDown reports "moved" it only emitted a piece-move and kept
the status. -/
lemma moveDown_moved (m : Machine) (now : Int)
    (h : (GameActions.moveDown m now).1 = true) :
    (GameActions.moveDown m now).2.m.game.status = m.game.status ∧
    (GameActions.moveDown m now).2.events = [.PIECE_MOVE] := by
  unfold GameActions.moveDown at h ⊢
  by_cases hcm : GameActions.canMove m.game <;>
    cases hcp : m.game.currentPiece <;> simp [hcm, hcp] at h ⊢
  split at h
  · simp_all
  · simp_all

/-- C7: the spawn-collision check is the one and only game-over trigger.
Movement, rotation and hold keep the status unchanged and never emit
game-over; pause/resume/startGame never produce GAME_OVER; a locking
action (gravity moveDown, softDrop, hardDrop) either keeps the status
with zero game-over emissions or ends in GAME_OVER with the piece
reference cleared and exactly one game-over emission; and spawnNextPiece
itself transitions to GAME_OVER with exactly one emission exactly when
the freshly drawn piece fails isValidPosition at the spawn cell, and
otherwise continues with the new piece at spawn and canHold reset. -/
theorem claim_C7 (m : Machine) (now : Int) (dir : RotDir) :
    (GameActions.moveLeft m now).m.game.status = m.game.status ∧
    (GameActions.moveRight m now).m.game.status = m.game.status ∧
    (GameActions.rotate m dir now).m.game.status = m.game.status ∧
    (GameActions.hold m now).m.game.status = m.game.status ∧
    GameEvent.GAME_OVER ∉ (GameActions.moveLeft m now).events ∧
    GameEvent.GAME_OVER ∉ (GameActions.moveRight m now).events ∧
    GameEvent.GAME_OVER ∉ (GameActions.rotate m dir now).events ∧
    GameEvent.GAME_OVER ∉ (GameActions.hold m now).events ∧
    ((GameActions.pause m now).m.game.status = .GAME_OVER →
      m.game.status = .GAME_OVER) ∧
    ((GameActions.resume m now).m.game.status = .GAME_OVER →
      m.game.status = .GAME_OVER) ∧
    (GameActions.startGame m now).m.game.status ≠ .GAME_OVER ∧
    (((GameActions.moveDown m now).2.m.game.status = m.game.status ∧
        (GameActions.moveDown m now).2.events.count GameEvent.GAME_OVER
          = 0) ∨
      ((GameActions.moveDown m now).2.m.game.status = .GAME_OVER ∧
        (GameActions.moveDown m now).2.m.game.currentPiece = none ∧
        (GameActions.moveDown m now).2.events.count GameEvent.GAME_OVER
          = 1)) ∧
    (((GameActions.softDrop m now).m.game.status = m.game.status ∧
        (GameActions.softDrop m now).events.count GameEvent.GAME_OVER
          = 0) ∨
      ((GameActions.softDrop m now).m.game.status = .GAME_OVER ∧
        (GameActions.softDrop m now).m.game.currentPiece = none ∧
        (GameActions.softDrop m now).events.count GameEvent.GAME_OVER
          = 1)) ∧
    (((GameActions.hardDrop m now).m.game.status = m.game.status ∧
        (GameActions.hardDrop m now).events.count GameEvent.GAME_OVER
          = 0) ∨
      ((GameActions.hardDrop m now).m.game.status = .GAME_OVER ∧
        (GameActions.hardDrop m now).m.game.currentPiece = none ∧
        (GameActions.hardDrop m now).events.count GameEvent.GAME_OVER
          = 1)) ∧
    (¬ m.game.board.isValidPosition (m.gen.next).1 SPAWN_X SPAWN_Y →
      (GameActions.spawnNextPiece m now).m.game.status = .GAME_OVER ∧
      (GameActions.spawnNextPiece m now).m.game.currentPiece = none ∧
      (GameActions.spawnNextPiece m now).events = [.GAME_OVER]) ∧
    (m.game.board.isValidPosition (m.gen.next).1 SPAWN_X SPAWN_Y →
      (GameActions.spawnNextPiece m now).m.game.status = m.game.status ∧
      (GameActions.spawnNextPiece m now).m.game.currentPiece =
        some (m.gen.next).1 ∧
      (GameActions.spawnNextPiece m now).m.game.currentX = SPAWN_X ∧
      (GameActions.spawnNextPiece m now).m.game.currentY = SPAWN_Y ∧
      (GameActions.spawnNextPiece m now).m.game.canHold = true ∧
      (GameActions.spawnNextPiece m now).events = [.PIECE_SPAWN]) := by
  obtain ⟨g, gen⟩ := m
  refine ⟨(moveLeft_facts ⟨g, gen⟩ now).1, (moveRight_facts ⟨g, gen⟩ now).1,
    (rotate_facts ⟨g, gen⟩ dir now).1, (hold_facts ⟨g, gen⟩ now).1,
    (moveLeft_facts ⟨g, gen⟩ now).2, (moveRight_facts ⟨g, gen⟩ now).2,
    (rotate_facts ⟨g, gen⟩ dir now).2, (hold_facts ⟨g, gen⟩ now).2,
    ?_, ?_, ?_, moveDown_char ⟨g, gen⟩ now, ?_, ?_, ?_, ?_⟩
  · unfold GameActions.pause
    by_cases h : g.status = GameStatus.PLAYING <;> simp [h]
  · unfold GameActions.resume
    by_cases h : g.status = GameStatus.PAUSED <;> simp [h]
  · unfold GameActions.startGame
    by_cases h : g.status = GameStatus.PLAYING <;> simp [h]
  · unfold GameActions.softDrop
    by_cases hcm : GameActions.canMove g
    · simp only [hcm, if_true]
      rcases hmd : GameActions.moveDown ⟨g, gen⟩ now with ⟨moved, o1⟩
      cases moved
      · simp only []
        have := moveDown_char ⟨g, gen⟩ now
        rw [hmd] at this
        exact this
      · have hmv := moveDown_moved ⟨g, gen⟩ now (by rw [hmd])
        rw [hmd] at hmv
        have he : o1.events = [GameEvent.PIECE_MOVE] := hmv.2
        left
        exact ⟨hmv.1, by simp [he]⟩
    · simp [hcm]
  · unfold GameActions.hardDrop
    by_cases hcm : GameActions.canMove g
    · cases hcp : g.currentPiece with
      | none => simp [hcm, hcp]
      | some p =>
        simp only [hcm, hcp, if_true]
        split <;> dsimp only
        · exact lock_wrap _ now g.status [GameEvent.SCORE_UPDATE] rfl
            (by decide)
        · exact lock_wrap _ now g.status [] rfl (by decide)
    · simp [hcm]
  · intro hv
    rw [spawnNextPiece_invalid _ _ now hv]
    exact ⟨rfl, rfl, rfl⟩
  · intro hv
    rw [spawnNextPiece_valid _ _ now hv]
    exact ⟨rfl, rfl, rfl, rfl, rfl, rfl⟩

/-- C7 witness: on a full board the spawn-collision branch fires — status
GAME_OVER, piece cleared, exactly the one game-over emission. -/
theorem claim_C7_witness :
    (GameActions.spawnNextPiece fullM 0).m.game.status = .GAME_OVER ∧
    (GameActions.spawnNextPiece fullM 0).m.game.currentPiece = none ∧
    (GameActions.spawnNextPiece fullM 0).events = [.GAME_OVER] :=
  (claim_C7 fullM 0 .clockwise).2.2.2.2.2.2.2.2.2.2.2.2.2.2.1 (by decide)

/-- hold is a complete no-op whenever canHold is false. -/
lemma hold_noop_of_canHold_false (m : Machine) (now : Int)
    (h : m.game.canHold = false) :
    GameActions.hold m now = ⟨m, [], 0⟩ := by
  unfold GameActions.hold
  simp [h]

/-- C8: after every (valid) spawn canHold is true; in a PLAYING state with
a current piece and canHold true, one hold call swaps current and held
pieces (both re-created at rotation 0 at the spawn cell; with nothing held
the current piece becomes held and a fresh piece is drawn), sets canHold
false and emits hold-piece; and any further hold call before the next
spawn, as well as any hold with canHold false, leaves the whole world
unchanged with no emission and no setState. -/
theorem claim_C8 (m : Machine) (now now2 : Int) :
    (m.game.board.isValidPosition (m.gen.next).1 SPAWN_X SPAWN_Y →
      (GameActions.spawnNextPiece m now).m.game.canHold = true) ∧
    (∀ cur, m.game.status = .PLAYING → m.game.currentPiece = some cur →
      m.game.canHold = true →
      (GameActions.hold m now).m.game.holdPiece = some ⟨cur.type, 0⟩ ∧
      (GameActions.hold m now).m.game.canHold = false ∧
      (GameActions.hold m now).m.game.currentX = SPAWN_X ∧
      (GameActions.hold m now).m.game.currentY = SPAWN_Y ∧
      (match m.game.holdPiece with
        | some hp =>
          (GameActions.hold m now).m.game.currentPiece = some ⟨hp.type, 0⟩
        | none =>
          (GameActions.hold m now).m.game.currentPiece =
            some (m.gen.next).1) ∧
      (GameActions.hold m now).events = [.HOLD_PIECE] ∧
      GameActions.hold (GameActions.hold m now).m now2 =
        ⟨(GameActions.hold m now).m, [], 0⟩) ∧
    (m.game.canHold = false → GameActions.hold m now = ⟨m, [], 0⟩) := by
  obtain ⟨g, gen⟩ := m
  refine ⟨?_, ?_, fun h => hold_noop_of_canHold_false ⟨g, gen⟩ now h⟩
  · intro hv
    rw [spawnNextPiece_valid _ _ now hv]
  · intro cur hst hcp hch
    have hst2 : g.status = GameStatus.PLAYING := hst
    have hcp2 : g.currentPiece = some cur := hcp
    have hch2 : g.canHold = true := hch
    have hcm : GameActions.canMove g = true := canMove_true hst hcp
    have hres :
        (GameActions.hold ⟨g, gen⟩ now).m.game.holdPiece =
          some ⟨cur.type, 0⟩ ∧
        (GameActions.hold ⟨g, gen⟩ now).m.game.canHold = false ∧
        (GameActions.hold ⟨g, gen⟩ now).m.game.currentX = SPAWN_X ∧
        (GameActions.hold ⟨g, gen⟩ now).m.game.currentY = SPAWN_Y ∧
        (match g.holdPiece with
          | some hp =>
            (GameActions.hold ⟨g, gen⟩ now).m.game.currentPiece =
              some ⟨hp.type, 0⟩
          | none =>
            (GameActions.hold ⟨g, gen⟩ now).m.game.currentPiece =
              some (gen.next).1) ∧
        (GameActions.hold ⟨g, gen⟩ now).events = [.HOLD_PIECE] := by
      unfold GameActions.hold
      rcases hnext : gen.next with ⟨np, g2⟩
      cases hhp : g.holdPiece <;>
        simp [hcm, hch2, hcp2, hhp, hnext]
    refine ⟨hres.1, hres.2.1, hres.2.2.1, hres.2.2.2.1, hres.2.2.2.2.1,
      hres.2.2.2.2.2, ?_⟩
    exact hold_noop_of_canHold_false _ now2 hres.2.1

/-- C8 witness: in the freshly started world (canHold true, current piece
T), one hold sets canHold to false. -/
theorem claim_C8_witness :
    (GameActions.hold c5M 0).m.game.canHold = false :=
  ((claim_C8 c5M 0 0).2.1 ⟨.T, 0⟩ (by decide) (by decide) (by decide)).2.1

/-- Draining a bag of length |bs| pops it back-to-front (JS Array.pop),
yielding bs reversed, and leaves the rest of the generator untouched. -/
lemma drawSeq_bag (bs : List PieceType) : ∀ (n : Nat) (pv : List Piece)
    (pc : Nat) (sup : List (List PieceType)),
    drawSeq ⟨bs, pv, pc, sup⟩ (bs.length + n) =
      bs.reverse ++ drawSeq ⟨[], pv, pc, sup⟩ n := by
  induction bs using List.reverseRecOn with
  | nil =>
    intro n pv pc sup
    simp
  | append_singleton l t ih =>
    intro n pv pc sup
    have hlen : (l ++ [t]).length + n = (l.length + n) + 1 := by
      simp
      omega
    rw [hlen]
    have hstep : drawSeq ⟨l ++ [t], pv, pc, sup⟩ ((l.length + n) + 1) =
        t :: drawSeq ⟨l, pv, pc, sup⟩ (l.length + n) := by
      have hne : (l ++ [t]).isEmpty = false := by simp
      simp [drawSeq, PieceGenerator.generatePiece, hne,
        List.getLast?_concat, List.dropLast_concat]
    rw [hstep, ih n pv pc sup]
    simp

/-- A draw on an empty bag refills from the next shuffle outcome and then
drains it completely over the next |b| draws. -/
lemma drawSeq_refill (b : List PieceType) (rest : List (List PieceType))
    (pv : List Piece) (pc : Nat) (n : Nat) (hb : b ≠ []) :
    drawSeq ⟨[], pv, pc, b :: rest⟩ (b.length + n) =
      b.reverse ++ drawSeq ⟨[], pv, pc, rest⟩ n := by
  induction b using List.reverseRecOn with
  | nil => exact absurd rfl hb
  | append_singleton l t ih =>
    have hlen : (l ++ [t]).length + n = (l.length + n) + 1 := by
      simp
      omega
    rw [hlen]
    have hstep : drawSeq ⟨[], pv, pc, (l ++ [t]) :: rest⟩
          ((l.length + n) + 1) =
        t :: drawSeq ⟨l, pv, pc, rest⟩ (l.length + n) := by
      simp [drawSeq, PieceGenerator.generatePiece,
        PieceGenerator.refillBag, List.getLast?_concat,
        List.dropLast_concat]
    rw [hstep, drawSeq_bag l (n := n) pv pc rest]
    simp

/-- C9: for every outcome of the shuffle (each oracle entry an arbitrary
permutation of the 7 kinds) and every bag index k, the window of 7
consecutive draws that begins at the k-th bag refill contains each of the
7 piece kinds exactly once. -/
theorem claim_C9 (supply : List (List PieceType)) (k : Nat) (t : PieceType)
    (hperm : ∀ b ∈ supply, b.Perm allKinds) (hk : k < supply.length) :
    (((drawSeq ⟨[], [], 0, supply⟩ (7 * supply.length)).drop (7 * k)).take
      7).count t = 1 := by
  induction supply generalizing k with
  | nil => simp at hk
  | cons b rest ih =>
    have hbp : b.Perm allKinds := hperm b (List.mem_cons_self b rest)
    have hb7 : b.length = 7 := by
      rw [hbp.length_eq]
      rfl
    have hbne : b ≠ [] := by
      intro h
      rw [h] at hb7
      simp at hb7
    have hsplit : drawSeq ⟨[], [], 0, b :: rest⟩ (7 * (b :: rest).length) =
        b.reverse ++ drawSeq ⟨[], [], 0, rest⟩ (7 * rest.length) := by
      have : 7 * (b :: rest).length = b.length + 7 * rest.length := by
        simp only [hb7, List.length_cons]
        omega
      rw [this, drawSeq_refill b rest [] 0 (7 * rest.length) hbne]
    rw [hsplit]
    cases k with
    | zero =>
      have hlen : b.reverse.length = 7 := by simp [hb7]
      have htake : ((b.reverse ++ drawSeq ⟨[], [], 0, rest⟩
            (7 * rest.length)).drop (7 * 0)).take 7 = b.reverse := by
        rw [Nat.mul_zero, List.drop_zero, ← hlen, List.take_left]
      rw [htake, List.count_reverse, hbp.count_eq]
      cases t <;> rfl
    | succ k0 =>
      have hlen : b.reverse.length = 7 := by simp [hb7]
      have hdrop : (b.reverse ++ drawSeq ⟨[], [], 0, rest⟩
            (7 * rest.length)).drop (7 * (k0 + 1)) =
          (drawSeq ⟨[], [], 0, rest⟩ (7 * rest.length)).drop (7 * k0) := by
        have h1 : 7 * (k0 + 1) = 7 + 7 * k0 := by ring
        rw [h1, ← List.drop_drop, ← hlen, List.drop_left]
      rw [hdrop]
      refine ih k0 (fun b2 hb2 => hperm b2 (List.mem_cons_of_mem b hb2)) ?_
      simp only [List.length_cons] at hk
      omega

/-- C9 witness: two concrete shuffled bags; the window at the second
refill holds each kind once (instantiated at kind T). -/
theorem claim_C9_witness :
    (((drawSeq ⟨[], [], 0, [allKinds, allKinds.reverse]⟩ (7 * 2)).drop
      (7 * 1)).take 7).count PieceType.T = 1 :=
  claim_C9 [allKinds, allKinds.reverse] 1 .T
    (by intro b hb; fin_cases hb <;> decide) (by decide)

/-- Injectivity of the flat index y*w+x over in-range columns. -/
lemma index_inj {w x cx y cy : Int} (hw : 0 < w) (hx : 0 ≤ x) (hxw : x < w)
    (hcx : 0 ≤ cx) (hcxw : cx < w) (h : y * w + x = cy * w + cx) :
    x = cx ∧ y = cy := by
  have h2 : (y - cy) * w = cx - x := by
    have h3 : (y - cy) * w = y * w - cy * w := by ring
    rw [h3]
    linarith
  by_cases hy : y = cy
  · subst hy
    exact ⟨by linarith, rfl⟩
  · exfalso
    have h4 : (1 : Int) ≤ |y - cy| := Int.one_le_abs (sub_ne_zero.mpr hy)
    have h5 : w ≤ |y - cy| * w := le_mul_of_one_le_left (le_of_lt hw) h4
    have h6 : |(y - cy) * w| = |y - cy| * w := by
      rw [abs_mul, abs_of_pos hw]
    have h7 : |cx - x| < w := by
      rw [abs_lt]
      constructor <;> linarith
    rw [h2] at h6
    linarith

/-- Writing one cell changes the reading of no cell at other coordinates. -/
lemma getCell_setCell_ne (b : Board) (x y cx cy : Int) (v : Nat)
    (hne : ¬(cx = x ∧ cy = y)) :
    (b.setCell x y v).getCell cx cy = b.getCell cx cy := by
  unfold Board.setCell
  by_cases hin : 0 ≤ x ∧ x < b.width ∧ 0 ≤ y ∧ y < b.height
  · rw [if_pos hin]
    unfold Board.getCell Board.getIndex
    by_cases hcin : cx < 0 || cx ≥ b.width || cy < 0 || cy ≥ b.height
    · simp only [hcin]
      rfl
    · simp only [hcin]
      have hw0 : (0 : Int) < b.width := lt_of_le_of_lt hin.1 hin.2.1
      have hb : ¬(cx < 0 ∨ cx ≥ b.width ∨ cy < 0 ∨ cy ≥ b.height) := by
        intro hc
        rw [show (cx < 0 || cx ≥ b.width || cy < 0 || cy ≥ b.height) = true
          by rcases hc with h | h | h | h <;> simp [h]] at hcin
        exact hcin rfl
      push_neg at hb
      obtain ⟨hc1, hc2, hc3, hc4⟩ := hb
      have hidx : (y * b.width + x).toNat ≠ (cy * b.width + cx).toNat := by
        intro he
        have hxy0 : 0 ≤ y * b.width + x :=
          add_nonneg (mul_nonneg hin.2.2.1 (le_of_lt hw0)) hin.1
        have hcxy0 : 0 ≤ cy * b.width + cx :=
          add_nonneg (mul_nonneg hc3 (le_of_lt hw0)) hc1
        have he2 : y * b.width + x = cy * b.width + cx := by
          omega
        exact hne ⟨((index_inj hw0 hin.1 hin.2.1 hc1 hc2
          he2).1).symm, ((index_inj hw0 hin.1 hin.2.1 hc1
          hc2 he2).2).symm⟩
      simp [List.getD_eq_getElem?_getD, List.getElem?_set_ne hidx]
  · rw [if_neg hin]

/-- setCell keeps the board dimensions. -/
lemma setCell_dims (b : Board) (x y : Int) (v : Nat) :
    (b.setCell x y v).width = b.width ∧
    (b.setCell x y v).height = b.height := by
  unfold Board.setCell
  split <;> exact ⟨rfl, rfl⟩

/-- The frame property of a single placePiece write step. -/
lemma placeStep_frame (bstart : Board) (p : Piece) (x y cx cy : Int)
    (row col : Nat) (bb : Board)
    (ih : bb.getCell cx cy ≠ bstart.getCell cx cy →
      ∃ r c : Nat, (p.getShape.getD r []).getD c 0 ≠ 0 ∧ cx = x + c ∧
        cy = y + r ∧ 0 ≤ y + (r : Int)) :
    (if (p.getShape.getD row []).getD col 0 ≠ 0 then
        if 0 ≤ y + (row : Int) then
          bb.setCell (x + col) (y + row) (pieceTag p.type)
        else bb
      else bb).getCell cx cy ≠ bstart.getCell cx cy →
      ∃ r c : Nat, (p.getShape.getD r []).getD c 0 ≠ 0 ∧ cx = x + c ∧
        cy = y + r ∧ 0 ≤ y + (r : Int) := by
  by_cases hsh : (p.getShape.getD row []).getD col 0 ≠ 0
  · rw [if_pos hsh]
    by_cases hy : 0 ≤ y + (row : Int)
    · rw [if_pos hy]
      by_cases hcc : cx = x + col ∧ cy = y + row
      · intro _
        exact ⟨row, col, hsh, hcc.1, hcc.2, hy⟩
      · rw [getCell_setCell_ne bb (x + col) (y + row) cx cy _ hcc]
        exact ih
    · rw [if_neg hy]
      exact ih
  · rw [if_neg hsh]
    exact ih

/-- C10: board cell access is total and bounds-safe.  Out-of-range getCell
returns 0 and out-of-range setCell leaves the board unchanged; and for any
coordinates whatsoever (no validity precondition), placePiece changes an
in-bounds cell only if that cell is one of the piece's occupied cells
(x+col, y+row) with y+row ≥ 0. -/
theorem claim_C10 (b : Board) (p : Piece) (x y cx cy : Int) (v : Nat) :
    (x < 0 ∨ x ≥ b.width ∨ y < 0 ∨ y ≥ b.height →
      b.getCell x y = 0 ∧ b.setCell x y v = b) ∧
    (0 ≤ cx → cx < b.width → 0 ≤ cy → cy < b.height →
      (b.placePiece p x y).getCell cx cy ≠ b.getCell cx cy →
      ∃ r c : Nat, (p.getShape.getD r []).getD c 0 ≠ 0 ∧ cx = x + c ∧
        cy = y + r ∧ 0 ≤ y + (r : Int)) := by
  constructor
  · intro h
    constructor
    · unfold Board.getCell
      rw [if_pos]
      rcases h with h | h | h | h <;> simp [h]
    · unfold Board.setCell
      rw [if_neg]
      omega
  · intro _ _ _ _
    unfold Board.placePiece
    refine @List.foldlRecOn _ _
      (fun (bb : Board) => bb.getCell cx cy ≠ b.getCell cx cy →
        ∃ r c : Nat, (p.getShape.getD r []).getD c 0 ≠ 0 ∧ cx = x + c ∧
          cy = y + r ∧ 0 ≤ y + (r : Int)) _ _ _
      (fun hne => absurd rfl hne) ?_
    intro b1 hb1 row _
    refine @List.foldlRecOn _ _
      (fun (bb : Board) => bb.getCell cx cy ≠ b.getCell cx cy →
        ∃ r c : Nat, (p.getShape.getD r []).getD c 0 ≠ 0 ∧ cx = x + c ∧
          cy = y + r ∧ 0 ≤ y + (r : Int)) _ _ _ hb1 ?_
    intro b2 hb2 col _
    exact placeStep_frame b p x y cx cy row col b2 hb2

/-- C10 witness: on the fresh 12x20 board, placing an O piece at the
origin changes the in-bounds cell (1,1), and the theorem locates it as an
occupied shape cell. -/
theorem claim_C10_witness :
    ∃ r c : Nat,
      (((⟨.O, 0⟩ : Piece).getShape.getD r []).getD c 0 ≠ 0) ∧
      (1 : Int) = 0 + c ∧ (1 : Int) = 0 + r ∧ 0 ≤ (0 : Int) + (r : Int) :=
  (claim_C10 (Board.mk0 12 20) ⟨.O, 0⟩ 0 0 1 1 0).2 (by decide) (by decide)
    (by decide) (by decide) (by decide)

lemma foldl_board_dims {α : Type} (f : Board → α → Board) (l : List α)
    (b : Board)
    (h : ∀ bb a, (f bb a).width = bb.width ∧ (f bb a).height = bb.height) :
    (l.foldl f b).width = b.width ∧ (l.foldl f b).height = b.height := by
  induction l generalizing b with
  | nil => exact ⟨rfl, rfl⟩
  | cons a l2 ih =>
    simp only [List.foldl_cons]
    exact ⟨((ih (f b a)).1).trans (h b a).1,
      ((ih (f b a)).2).trans (h b a).2⟩

lemma copyRowDown_dims (b : Board) (y : Nat) :
    (b.copyRowDown y).width = b.width ∧
    (b.copyRowDown y).height = b.height := by
  unfold Board.copyRowDown
  exact foldl_board_dims _ _ b (fun bb a => setCell_dims bb _ _ _)

lemma clearOneLine_dims (b : Board) (lineY : Nat) :
    (b.clearOneLine lineY).width = b.width ∧
    (b.clearOneLine lineY).height = b.height := by
  unfold Board.clearOneLine
  have h1 := foldl_board_dims Board.copyRowDown
    ((List.range' 1 lineY).reverse) b (fun bb a => copyRowDown_dims bb a)
  have h2 := foldl_board_dims
    (fun bb x => bb.setCell (x : Int) 0 0)
    (List.range (((List.range' 1 lineY).reverse).foldl Board.copyRowDown
      b).width)
    (((List.range' 1 lineY).reverse).foldl Board.copyRowDown b)
    (fun bb a => setCell_dims bb _ _ _)
  exact ⟨h2.1.trans h1.1, h2.2.trans h1.2⟩

lemma clearLines_dims (b : Board) :
    ((b.clearLines).2).width = b.width ∧
    ((b.clearLines).2).height = b.height := by
  unfold Board.clearLines
  exact foldl_board_dims Board.clearOneLine _ b
    (fun bb a => clearOneLine_dims bb a)

lemma placePiece_dims (b : Board) (p : Piece) (x y : Int) :
    (b.placePiece p x y).width = b.width ∧
    (b.placePiece p x y).height = b.height := by
  unfold Board.placePiece
  refine foldl_board_dims _ _ b (fun bb row => ?_)
  refine foldl_board_dims _ _ bb (fun bb2 col => ?_)
  split
  · dsimp only
    split
    · exact setCell_dims bb2 _ _ _
    · exact ⟨rfl, rfl⟩
  · exact ⟨rfl, rfl⟩

/-- generatePiece always builds a rotation-0 piece. -/
lemma generatePiece_rot (g : PieceGenerator) :
    (g.generatePiece).1.rotation = 0 := by
  unfold PieceGenerator.generatePiece
  rcases h : (if g.bag.isEmpty then g.refillBag else g).bag.getLast?
    with _ | t <;> simp only [h] <;> rfl

/-- generatePiece never touches the preview queue. -/
lemma generatePiece_preview (g : PieceGenerator) :
    (g.generatePiece).2.preview = g.preview := by
  have href : (if g.bag.isEmpty then g.refillBag else g).preview =
      g.preview := by
    split
    · unfold PieceGenerator.refillBag
      cases g.supply <;> rfl
    · rfl
  unfold PieceGenerator.generatePiece
  rcases h : (if g.bag.isEmpty then g.refillBag else g).bag.getLast?
    with _ | t <;> simp only [h] <;> exact href

/-- fillPreview only adds rotation-0 pieces to the preview queue. -/
lemma fillPreview_rot (n : Nat) : ∀ (g : PieceGenerator),
    (∀ q ∈ g.preview, q.rotation = 0) →
    ∀ q ∈ (PieceGenerator.fillPreview g n).preview, q.rotation = 0 := by
  induction n with
  | zero => exact fun g hg => hg
  | succ n2 ih =>
    intro g hg
    unfold PieceGenerator.fillPreview
    rcases hgen : g.generatePiece with ⟨p, g1⟩
    have hp : p.rotation = 0 := by
      have := generatePiece_rot g
      rw [hgen] at this
      exact this
    have hg1 : g1.preview = g.preview := by
      have := generatePiece_preview g
      rw [hgen] at this
      exact this
    refine ih _ ?_
    intro q hq
    simp only [List.mem_append, hg1] at hq
    rcases hq with h | h
    · exact hg q h
    · simp at h
      rw [h, hp]

/-- The first piece handed out after a reset has rotation index 0. -/
lemma reset_next_rot (g : PieceGenerator) :
    ((g.reset).next).1.rotation = 0 := by
  unfold PieceGenerator.next
  have hrot := fillPreview_rot g.previewCount
    { g with bag := [], preview := [] } (by intro q hq; simp at hq)
  rcases hpv : (g.reset).preview with _ | ⟨p, rest⟩
  · simp [hpv]
  · have hp : p ∈ (g.reset).preview := by
      rw [hpv]
      exact List.mem_cons_self p rest
    simp only [hpv]
    exact hrot p hp

/-- Every rotation-0 piece fits at the spawn cell of a cleared 12x20
board. -/
lemma spawn_valid_clear (t : PieceType) :
    (⟨12, 20, List.replicate 240 0⟩ : Board).isValidPosition ⟨t, 0⟩
      SPAWN_X SPAWN_Y = true := by
  cases t <;> decide

lemma piece_rot0_eta (p : Piece) (h : p.rotation = 0) :
    p = ⟨p.type, 0⟩ := by
  cases p
  simp_all

/-- startGame establishes the collision invariant: either it is the
PLAYING no-op, or the board is cleared and the fresh rotation-0 piece
fits the spawn cell of the empty board. -/
lemma inv_startGame (m : Machine) (now : Int) (hi : Inv m) :
    Inv (GameActions.startGame m now).m := by
  obtain ⟨g, gen⟩ := m
  unfold GameActions.startGame
  by_cases h : g.status = GameStatus.PLAYING
  · simp only [h, if_true]
    exact hi
  · simp only [h, if_false]
    obtain ⟨hw, hh, _⟩ := hi
    have hw2 : g.board.width = BOARD_WIDTH := hw
    have hh2 : g.board.height = BOARD_HEIGHT := hh
    have hclear : g.board.clear =
        (⟨12, 20, List.replicate 240 0⟩ : Board) := by
      unfold Board.clear
      rw [hw2, hh2]
      rfl
    refine ⟨?_, ?_, ?_⟩
    · simp [hclear, BOARD_WIDTH]
    · simp [hclear, BOARD_HEIGHT]
    · intro p hp
      simp only at hp
      have hrot : p.rotation = 0 := by
        rw [show p = ((gen.reset).next).1 from (Option.some_inj.mp hp).symm]
        exact reset_next_rot gen
      simp only [hclear]
      rw [piece_rot0_eta p hrot]
      exact spawn_valid_clear p.type

lemma inv_pause (m : Machine) (now : Int) (hi : Inv m) :
    Inv (GameActions.pause m now).m := by
  obtain ⟨g, gen⟩ := m
  unfold GameActions.pause
  by_cases h : g.status = GameStatus.PLAYING <;>
    simp only [h, if_true, if_false]
  · exact ⟨hi.1, hi.2.1, fun p hp => hi.2.2 p hp⟩
  · exact hi

lemma inv_resume (m : Machine) (now : Int) (hi : Inv m) :
    Inv (GameActions.resume m now).m := by
  obtain ⟨g, gen⟩ := m
  unfold GameActions.resume
  by_cases h : g.status = GameStatus.PAUSED <;>
    simp only [h, if_true, if_false]
  · exact ⟨hi.1, hi.2.1, fun p hp => hi.2.2 p hp⟩
  · exact hi

lemma inv_moveLeft (m : Machine) (now : Int) (hi : Inv m) :
    Inv (GameActions.moveLeft m now).m := by
  obtain ⟨g, gen⟩ := m
  unfold GameActions.moveLeft
  by_cases hcm : GameActions.canMove g
  · simp only [hcm, if_true]
    cases hcp : g.currentPiece with
    | none => exact hi
    | some p =>
      by_cases hv : g.board.isValidPosition p (g.currentX - 1) g.currentY
      · simp only [hv, if_true]
        refine ⟨hi.1, hi.2.1, fun p2 hp2 => ?_⟩
        simp only [hcp] at hp2
        rw [← Option.some_inj.mp hp2]
        exact hv
      · simp only [hv, if_false]
        exact hi
  · simp only [hcm, if_false, Bool.false_eq_true]
    exact hi

lemma inv_moveRight (m : Machine) (now : Int) (hi : Inv m) :
    Inv (GameActions.moveRight m now).m := by
  obtain ⟨g, gen⟩ := m
  unfold GameActions.moveRight
  by_cases hcm : GameActions.canMove g
  · simp only [hcm, if_true]
    cases hcp : g.currentPiece with
    | none => exact hi
    | some p =>
      by_cases hv : g.board.isValidPosition p (g.currentX + 1) g.currentY
      · simp only [hv, if_true]
        refine ⟨hi.1, hi.2.1, fun p2 hp2 => ?_⟩
        simp only [hcp] at hp2
        rw [← Option.some_inj.mp hp2]
        exact hv
      · simp only [hv, if_false]
        exact hi
  · simp only [hcm, if_false, Bool.false_eq_true]
    exact hi

lemma inv_spawnNextPiece (m : Machine) (now : Int)
    (hw : m.game.board.width = BOARD_WIDTH)
    (hh : m.game.board.height = BOARD_HEIGHT) :
    Inv (GameActions.spawnNextPiece m now).m := by
  obtain ⟨g, gen⟩ := m
  by_cases hv : g.board.isValidPosition (gen.next).1 SPAWN_X SPAWN_Y
  · rw [spawnNextPiece_valid g gen now hv]
    refine ⟨hw, hh, fun p hp => ?_⟩
    simp only at hp
    rw [← Option.some_inj.mp hp]
    exact hv
  · rw [spawnNextPiece_invalid g gen now hv]
    exact ⟨hw, hh, fun p hp => by simp at hp⟩

lemma inv_lockPiece (m : Machine) (now : Int)
    (hw : m.game.board.width = BOARD_WIDTH)
    (hh : m.game.board.height = BOARD_HEIGHT) :
    Inv (GameActions.lockPiece m now).m := by
  obtain ⟨g, gen⟩ := m
  unfold GameActions.lockPiece
  cases hcp : g.currentPiece with
  | none =>
    simp only [hcp]
    exact ⟨hw, hh, fun p hp => absurd (hcp.symm.trans hp) (by simp)⟩
  | some p =>
    rcases hcl : (g.board.placePiece p g.currentX g.currentY).clearLines
      with ⟨lc, b2⟩
    have hb2w : b2.width = BOARD_WIDTH := by
      have h1 := clearLines_dims (g.board.placePiece p g.currentX
        g.currentY)
      rw [hcl] at h1
      simp only at h1
      rw [h1.1, (placePiece_dims g.board p g.currentX g.currentY).1]
      exact hw
    have hb2h : b2.height = BOARD_HEIGHT := by
      have h1 := clearLines_dims (g.board.placePiece p g.currentX
        g.currentY)
      rw [hcl] at h1
      simp only at h1
      rw [h1.2, (placePiece_dims g.board p g.currentX g.currentY).2]
      exact hh
    simp only [hcp, hcl]
    by_cases hpos : lc > 0
    · rw [if_pos hpos]
      exact inv_spawnNextPiece _ now hb2w hb2h
    · rw [if_neg hpos]
      exact inv_spawnNextPiece _ now hb2w hb2h

lemma inv_moveDown (m : Machine) (now : Int) (hi : Inv m) :
    Inv (GameActions.moveDown m now).2.m := by
  obtain ⟨g, gen⟩ := m
  unfold GameActions.moveDown
  by_cases hcm : GameActions.canMove g
  · simp only [hcm, if_true]
    cases hcp : g.currentPiece with
    | none => exact hi
    | some p =>
      by_cases hv : g.board.isValidPosition p g.currentX (g.currentY + 1)
      · simp only [hv, if_true]
        refine ⟨hi.1, hi.2.1, fun p2 hp2 => ?_⟩
        simp only [hcp] at hp2
        rw [← Option.some_inj.mp hp2]
        exact hv
      · simp only [hv, if_false]
        exact inv_lockPiece ⟨g, gen⟩ now hi.1 hi.2.1
  · simp only [hcm, if_false, Bool.false_eq_true]
    exact hi

lemma inv_softDrop (m : Machine) (now : Int) (hi : Inv m) :
    Inv (GameActions.softDrop m now).m := by
  obtain ⟨g, gen⟩ := m
  unfold GameActions.softDrop
  by_cases hcm : GameActions.canMove g
  · simp only [hcm, if_true]
    rcases hmd : GameActions.moveDown ⟨g, gen⟩ now with ⟨moved, o1⟩
    have ho1 : Inv o1.m := by
      have := inv_moveDown ⟨g, gen⟩ now hi
      rw [hmd] at this
      exact this
    cases moved <;> simp only
    · exact ho1
    · exact ⟨ho1.1, ho1.2.1, fun p hp => ho1.2.2 p hp⟩
  · simp only [hcm, if_false, Bool.false_eq_true]
    exact hi

lemma inv_hardDrop (m : Machine) (now : Int) (hi : Inv m) :
    Inv (GameActions.hardDrop m now).m := by
  obtain ⟨g, gen⟩ := m
  unfold GameActions.hardDrop
  by_cases hcm : GameActions.canMove g
  · simp only [hcm, if_true]
    cases hcp : g.currentPiece with
    | none => exact hi
    | some p =>
      dsimp only
      by_cases hd : g.board.getHardDropDistance p g.currentX g.currentY > 0
      · rw [if_pos hd]
        exact inv_lockPiece _ now hi.1 hi.2.1
      · rw [if_neg hd]
        exact inv_lockPiece _ now hi.1 hi.2.1
  · simp only [hcm, if_false, Bool.false_eq_true]
    exact hi

lemma inv_rotateKicks (m : Machine) (p : Piece) (hi : Inv m) :
    ∀ l : List (Int × Int), Inv (GameActions.rotateKicks m p l).m := by
  intro l
  induction l with
  | nil => exact hi
  | cons o rest ih =>
    obtain ⟨ox, oy⟩ := o
    unfold GameActions.rotateKicks
    by_cases hv : m.game.board.isValidPosition p (m.game.currentX + ox)
        (m.game.currentY + oy)
    · simp only [hv, if_true]
      refine ⟨hi.1, hi.2.1, fun p2 hp2 => ?_⟩
      simp only at hp2
      rw [← Option.some_inj.mp hp2]
      exact hv
    · simp only [hv, if_false]
      exact ih

lemma inv_rotate (m : Machine) (dir : RotDir) (now : Int) (hi : Inv m) :
    Inv (GameActions.rotate m dir now).m := by
  obtain ⟨g, gen⟩ := m
  unfold GameActions.rotate
  by_cases hcm : GameActions.canMove g
  · simp only [hcm, if_true]
    cases hcp : g.currentPiece with
    | none => exact hi
    | some p0 =>
      by_cases hv : g.board.isValidPosition (p0.rotate dir) g.currentX
          g.currentY
      · simp only [hv, if_true]
        refine ⟨hi.1, hi.2.1, fun p2 hp2 => ?_⟩
        simp only at hp2
        rw [← Option.some_inj.mp hp2]
        exact hv
      · simp only [hv, if_false]
        exact inv_rotateKicks ⟨g, gen⟩ (p0.rotate dir) hi _
  · simp only [hcm, if_false, Bool.false_eq_true]
    exact hi

/-- One non-hold public action preserves the collision invariant. -/
lemma inv_step (m : Machine) (a : PubAct × Int) (hi : Inv m)
    (hnh : a.1 ≠ PubAct.holdA) : Inv (step m a) := by
  obtain ⟨act, now⟩ := a
  cases act with
  | startA => exact inv_startGame m now hi
  | pauseA => exact inv_pause m now hi
  | resumeA => exact inv_resume m now hi
  | leftA => exact inv_moveLeft m now hi
  | rightA => exact inv_moveRight m now hi
  | downA => exact inv_moveDown m now hi
  | softA => exact inv_softDrop m now hi
  | hardA => exact inv_hardDrop m now hi
  | rotA dir => exact inv_rotate m dir now hi
  | holdA => exact absurd rfl hnh

lemma inv_run (m : Machine) (acts : List (PubAct × Int)) (hi : Inv m)
    (hnh : ∀ a ∈ acts, a.1 ≠ PubAct.holdA) : Inv (acts.foldl step m) := by
  induction acts generalizing m with
  | nil => exact hi
  | cons a rest ih =>
    simp only [List.foldl_cons]
    exact ih (step m a)
      (inv_step m a hi (hnh a (List.mem_cons_self a rest)))
      (fun b hb => hnh b (List.mem_cons_of_mem a hb))

/-- C2 (amended): along every action sequence from the initial world that
never invokes hold — moveLeft, moveRight, gravity/soft/hard drops, rotate,
and the status actions — the current piece, whenever one exists, sits at
a position isValidPosition accepts.  (hold must be excluded: it re-spawns
the swapped-in piece with no validity check, see the counterexample.) -/
theorem claim_C2 (supply : List (List PieceType))
    (acts : List (PubAct × Int))
    (hnh : ∀ a ∈ acts, a.1 ≠ PubAct.holdA) :
    Inv (run (initMachine supply) acts) := by
  have hinit : Inv (initMachine supply) := by
    refine ⟨rfl, rfl, fun p hp => ?_⟩
    simp [initMachine] at hp
  exact inv_run (initMachine supply) acts hinit hnh

/-- C2 witness run: start a game and apply one gravity tick. -/
theorem claim_C2_witness :
    Inv (run (initMachine [allKinds]) [(.startA, 0), (.downA, 1)]) :=
  claim_C2 [allKinds] [(.startA, 0), (.downA, 1)] (by decide)

set_option maxRecDepth 400000 in
/-- C2 counterexample: the state reached from startGame by the concrete
42-action script above — every shuffle outcome a genuine permutation of
the 7 kinds — is still PLAYING yet its current piece (the swapped-in T at
the spawn cell) fails isValidPosition: hold commits the swap with no
validity check, so the claimed invariant is false for reachable states. -/
theorem claim_C2_cex :
    violatesInv cexM = true ∧
    cexM.game.status = .PLAYING ∧
    (cexSupply.all fun b => decide (b.Perm allKinds)) = true := by
  refine ⟨?_, ?_, ?_⟩ <;> decide

end Tetris
